import Mathlib

/-!
Verification development for the `filter-reputation` SMTP session-reputation
filter.  Two program variants exist in the repository and both are embedded:

* namespace `Hist` - the historical-store engine (per-session behavioural
  scoring, a shared history store keyed by IP-address string, and a periodic
  maintenance sweep);
* namespace `Adj` - the incremental reward/penalty adjuster variant
  (per-resource trust tables nudged on every event).

Modelling conventions:
* Go `float64` arithmetic is embedded in `ℚ` with the source's decimal
  constants taken exactly;
* Go maps are embedded as functions into `Option` (a missing key is `none`,
  mirroring Go's `value, ok := m[k]` and the zero-value default);
* Go timestamps (`time.Time`) are embedded as `Int` seconds, so
  `t.Add(5 * 24 * time.Hour).Before(now)` becomes `t + 5 * 24 * 3600 < now`;
* a Go runtime panic (out-of-range index, failed type assertion without the
  two-value form) is embedded as `Option.none` in the handler's result.
-/

/-- A source network address as seen by a connect callback: either a TCP
address carrying an IP (rendered as its string form, which is all the code
uses), or any other `net.Addr`. -/
inductive Addr where
  | tcp (ip : String)
  | other
deriving DecidableEq

namespace Hist

/-- The `Scoring` record of the historical engine: an immutable summary of one
session, appended to the store at disconnect. -/
structure Scoring where
  Timestamp : Int
  Score : ℚ
  AuthFailures : Nat
  AuthSuccesses : Nat
  Resets : Nat
  RcptCount : Nat
  DataCount : Nat
  CommitCount : Nat
  RollbackCount : Nat
deriving DecidableEq

/-- The Go zero value `Scoring{}`. -/
def zeroScoring : Scoring :=
  { Timestamp := 0, Score := 0, AuthFailures := 0, AuthSuccesses := 0,
    Resets := 0, RcptCount := 0, DataCount := 0, CommitCount := 0,
    RollbackCount := 0 }

/-- One SMTP envelope attempt (`Transaction` in the source). -/
structure Transaction where
  beginTime : Int
  endTime : Int
  mailFromOK : Bool
  rcptToOK : Nat
  rcptToTempfail : Nat
  rcptToPermfail : Nat
  sawData : Bool
  committed : Bool
deriving DecidableEq

/-- Per-connection state of the historical engine (`SessionData` in the
source). -/
structure SessionData where
  skip : Bool
  connectTime : Int
  disconnectTime : Int
  addr : String
  rdns : Bool
  fcrdns : Bool
  cmdHelo : Bool
  cmdEhlo : Bool
  heloname : String
  cmdAuth : Bool
  authok : Nat
  authfail : Nat
  cmdTLS : Bool
  tlsString : String
  nResets : Nat
  transactions : List Transaction
deriving DecidableEq

/-- A fresh zeroed session, as produced by the session allocator. -/
def emptySession : SessionData :=
  { skip := false, connectTime := 0, disconnectTime := 0, addr := "",
    rdns := false, fcrdns := false, cmdHelo := false, cmdEhlo := false,
    heloname := "", cmdAuth := false, authok := 0, authfail := 0,
    cmdTLS := false, tlsString := "", nResets := 0, transactions := [] }

/-- `scoreTransaction` from the source: weights 0.4 (accepted sender),
0.3 (data seen), 0.3 (committed), +0.1 per accepted recipient, -0.2 per
failed recipient (temp-fail and perm-fail together), clamped by
`math.Max(0.0, math.Min(1.0, baseScore))`. -/
def scoreTransaction (tx : Transaction) : ℚ :=
  let baseScore : ℚ := 0
  let baseScore := if tx.mailFromOK then baseScore + 0.4 else baseScore
  let baseScore := if tx.sawData then baseScore + 0.3 else baseScore
  let baseScore := if tx.committed then baseScore + 0.3 else baseScore
  let baseScore := baseScore + (tx.rcptToOK : ℚ) * 0.1
  let baseScore := baseScore - ((tx.rcptToTempfail + tx.rcptToPermfail : Nat) : ℚ) * 0.2
  max 0 (min 1 baseScore)

/-- Clamp to the unit interval, the spec's "clamp result to [0,1]". -/
def clamp01 (x : ℚ) : ℚ := max 0 (min 1 x)

/-- Modelled from the spec's wording of the Transaction Scorer algorithm
(§4.1): one closed-form sum of the weighted signals, clamped to [0,1].
Compared against the source's `scoreTransaction`. -/
def scoreTransactionSpec (tx : Transaction) : ℚ :=
  clamp01 ((if tx.mailFromOK then 0.4 else 0)
    + (if tx.sawData then 0.3 else 0)
    + (if tx.committed then 0.3 else 0)
    + (tx.rcptToOK : ℚ) * 0.1
    - ((tx.rcptToTempfail : ℚ) + (tx.rcptToPermfail : ℚ)) * 0.2)

/-- `scoreSession` from the source: mean transaction score (0 when no
transaction), +0.1 per auth success, -0.1 per auth failure, +0.2 for TLS,
+0.1 for reverse DNS, +0.1 for FCrDNS, -0.05 per reset, clamped to [0,1]. -/
def scoreSession (session : SessionData) : ℚ :=
  let baseScore : ℚ := 0
  let totalTransactions := session.transactions.length
  let baseScore := if 0 < totalTransactions then
      let transactionScore :=
        session.transactions.foldl (fun acc tx => acc + scoreTransaction tx) 0
      baseScore + transactionScore / (totalTransactions : ℚ)
    else baseScore
  let baseScore := baseScore + (session.authok : ℚ) * 0.1
  let baseScore := baseScore - (session.authfail : ℚ) * 0.1
  let baseScore := if session.cmdTLS then baseScore + 0.2 else baseScore
  let baseScore := if session.rdns then baseScore + 0.1 else baseScore
  let baseScore := if session.fcrdns then baseScore + 0.1 else baseScore
  let baseScore := baseScore - (session.nResets : ℚ) * 0.05
  max 0 (min 1 baseScore)

/-- Modelled from the spec's wording of the Session Scorer algorithm (§4.2):
base is the arithmetic mean of the transaction scores when at least one
transaction exists, otherwise 0; then the fixed bonuses/penalties, clamped.
Compared against the source's `scoreSession`. -/
def scoreSessionSpec (s : SessionData) : ℚ :=
  clamp01 ((if s.transactions = [] then 0
      else (s.transactions.map scoreTransaction).sum / (s.transactions.length : ℚ))
    + (s.authok : ℚ) * 0.1
    - (s.authfail : ℚ) * 0.1
    + (if s.cmdTLS then 0.2 else 0)
    + (if s.rdns then 0.1 else 0)
    + (if s.fcrdns then 0.1 else 0)
    - (s.nResets : ℚ) * 0.05)

/-- `summarizeSession` from the source: the immutable summary appended to the
store at disconnect.  The source stamps it with `time.Now()`, passed here as
`now`. -/
def summarizeSession (session : SessionData) (now : Int) : Scoring :=
  let c := session.transactions.foldl
    (fun (acc : Nat × Nat × Nat × Nat) tx =>
      (acc.1 + tx.rcptToOK + tx.rcptToTempfail + tx.rcptToPermfail,
       acc.2.1 + (if tx.sawData then 1 else 0),
       acc.2.2.1 + (if tx.committed then 1 else 0),
       acc.2.2.2 + (if tx.committed then 0 else 1)))
    (0, 0, 0, 0)
  { Timestamp := now, Score := scoreSession session,
    AuthFailures := session.authfail, AuthSuccesses := session.authok,
    Resets := session.nResets, RcptCount := c.1, DataCount := c.2.1,
    CommitCount := c.2.2.1, RollbackCount := c.2.2.2 }

/-- The loop body of `aggregateScoring`: add every counted field of one
summary into the accumulator (the timestamp is not aggregated). -/
def aggStep (aggregate : Scoring) (score : Scoring) : Scoring :=
  { aggregate with
    Score := aggregate.Score + score.Score,
    AuthFailures := aggregate.AuthFailures + score.AuthFailures,
    AuthSuccesses := aggregate.AuthSuccesses + score.AuthSuccesses,
    Resets := aggregate.Resets + score.Resets,
    RcptCount := aggregate.RcptCount + score.RcptCount,
    DataCount := aggregate.DataCount + score.DataCount,
    CommitCount := aggregate.CommitCount + score.CommitCount,
    RollbackCount := aggregate.RollbackCount + score.RollbackCount }

/-- `aggregateScoring` from the source: sum the fields of all summaries and
divide the score by the number of summaries; the empty list yields the zero
value. -/
def aggregateScoring (scores : List Scoring) : Scoring :=
  if scores.length = 0 then zeroScoring
  else
    let totalScores := scores.length
    let aggregate := scores.foldl aggStep zeroScoring
    { aggregate with Score := aggregate.Score / (totalScores : ℚ) }

/-- The shared `ipScoring` map: IP-address string to the ordered sequence of
session summaries; a key never written is `none`. -/
abbrev Store := String → Option (List Scoring)

/-- A store with no recorded history. -/
def emptyStore : Store := fun _ => none

/-- The prior-trust lookup performed by the historical engine's
`linkConnectCb`: `scorings, exists := ipScoring[key]`, then 0.5 when the key
is absent or fewer than 5 summaries exist, otherwise the aggregated (mean)
score. -/
def connectPriorScore (scorings : Option (List Scoring)) : ℚ :=
  match scorings with
  | none => 0.5
  | some l => if l.length < 5 then 0.5 else (aggregateScoring l).Score

/-- The score computed at connect for the session's address. -/
def connectScore (store : Store) (key : String) : ℚ :=
  connectPriorScore (store key)

/-- One maintenance-sweep decision for a single key's sequence, from the
loop body of `init`: if more than 100 entries, keep the last 100
(`scoring[len(scoring)-100:]`); else if the newest entry is more than 5 days
old, delete the key (`none`); else leave the sequence alone.  The Go code
indexes `scoring[len(scoring)-1]`, defined only for non-empty sequences
(store values are always non-empty); `getLastD zeroScoring` supplies the
unreachable-empty default. -/
def sweepKey (now : Int) (scoring : List Scoring) : Option (List Scoring) :=
  if 100 < scoring.length then some (scoring.drop (scoring.length - 100))
  else if (scoring.getLastD zeroScoring).Timestamp + 5 * 24 * 3600 < now then none
  else some scoring

/-- One full sweep pass over the store: every key's sequence is subjected to
`sweepKey`, a key whose decision is `none` is deleted. -/
def sweepPass (now : Int) (store : Store) : Store :=
  fun ip => (store ip).bind (sweepKey now)

/-- Replace the last element of a list by its image under `f` (the Go code
mutates `transactions[len-1]` through a pointer). -/
def modifyLast (f : Transaction → Transaction) : List Transaction → List Transaction
  | [] => []
  | [t] => [f t]
  | t :: u :: rest => t :: modifyLast f (u :: rest)

/-- `linkConnectCb` of the historical engine: a non-TCP source address marks
the session `skip` and returns; otherwise the session is initialised from
the event.  (The prior-trust score it logs is `connectScore`.) -/
def linkConnectCb (timestamp : Int) (s : SessionData) (rdns fcrdns : String)
    (src : Addr) : SessionData :=
  match src with
  | Addr.other => { s with skip := true }
  | Addr.tcp ip =>
    { s with transactions := [], connectTime := timestamp, addr := ip,
             rdns := rdns != "<unknown>",
             fcrdns := (fcrdns == "ok") || (fcrdns == "pass") }

/-- `linkDisconnectCb` of the historical engine: a skipped session is
ignored; otherwise the disconnect time is set and `summarizeSession` is
appended to the store under the session's address. -/
def linkDisconnectCb (timestamp now : Int) (s : SessionData) (store : Store) :
    SessionData × Store :=
  if s.skip then (s, store)
  else
    let s := { s with disconnectTime := timestamp }
    (s, Function.update store s.addr
        (some ((store s.addr).getD [] ++ [summarizeSession s now])))

/-- `linkIdentifyCb` of the historical engine. -/
def linkIdentifyCb (timestamp : Int) (s : SessionData) (method hostname : String) :
    SessionData :=
  if s.skip then s
  else
    let s := if method == "HELO" then { s with cmdHelo := true } else s
    let s := if method == "EHLO" then { s with cmdEhlo := true } else s
    { s with heloname := hostname }

/-- `linkAuthCb` of the historical engine. -/
def linkAuthCb (timestamp : Int) (s : SessionData) (result username : String) :
    SessionData :=
  if s.skip then s
  else
    let s := { s with cmdAuth := true }
    if result == "ok" then { s with authok := s.authok + 1 }
    else { s with authfail := s.authfail + 1 }

/-- `linkTLSCb` of the historical engine. -/
def linkTLSCb (timestamp : Int) (s : SessionData) (tlsString : String) :
    SessionData :=
  if s.skip then s else { s with cmdTLS := true, tlsString := tlsString }

/-- `txResetCb` of the historical engine. -/
def txResetCb (timestamp : Int) (s : SessionData) (messageId : String) :
    SessionData :=
  if s.skip then s else { s with nResets := s.nResets + 1 }

/-- `txBeginCb` of the historical engine: append a fresh transaction. -/
def txBeginCb (timestamp : Int) (s : SessionData) (messageId : String) :
    SessionData :=
  if s.skip then s
  else { s with transactions := s.transactions ++
          [{ beginTime := timestamp, endTime := 0, mailFromOK := false,
             rcptToOK := 0, rcptToTempfail := 0, rcptToPermfail := 0,
             sawData := false, committed := false }] }

/-- `txMailCb` of the historical engine: indexes `transactions[len-1]`,
which panics (`none`) when a non-skipped session has no transaction. -/
def txMailCb (timestamp : Int) (s : SessionData) (messageId result from_ : String) :
    Option SessionData :=
  if s.skip then some s
  else if s.transactions.isEmpty then none
  else
    let txs := modifyLast
      (fun tx => if result == "ok" then { tx with mailFromOK := true } else tx)
      s.transactions
    some { s with transactions := txs }

/-- `txRcptCb` of the historical engine: same last-transaction access. -/
def txRcptCb (timestamp : Int) (s : SessionData) (messageId result to_ : String) :
    Option SessionData :=
  if s.skip then some s
  else if s.transactions.isEmpty then none
  else
    let txs := modifyLast
      (fun tx =>
        if result == "ok" then { tx with rcptToOK := tx.rcptToOK + 1 }
        else if result == "tempfail" then { tx with rcptToTempfail := tx.rcptToTempfail + 1 }
        else if result == "permfail" then { tx with rcptToPermfail := tx.rcptToPermfail + 1 }
        else tx)
      s.transactions
    some { s with transactions := txs }

/-- `txDataCb` of the historical engine: same last-transaction access. -/
def txDataCb (timestamp : Int) (s : SessionData) (messageId result : String) :
    Option SessionData :=
  if s.skip then some s
  else if s.transactions.isEmpty then none
  else
    let txs := modifyLast (fun tx => { tx with sawData := true }) s.transactions
    some { s with transactions := txs }

/-- `txCommitCb` of the historical engine: same last-transaction access. -/
def txCommitCb (timestamp : Int) (s : SessionData) (messageId : String)
    (messageSize : Int) : Option SessionData :=
  if s.skip then some s
  else if s.transactions.isEmpty then none
  else
    let txs := modifyLast
      (fun tx => { tx with endTime := timestamp, committed := true })
      s.transactions
    some { s with transactions := txs }

/-- `txRollbackCb` of the historical engine: same last-transaction access. -/
def txRollbackCb (timestamp : Int) (s : SessionData) (messageId : String) :
    Option SessionData :=
  if s.skip then some s
  else if s.transactions.isEmpty then none
  else
    let txs := modifyLast (fun tx => { tx with endTime := timestamp }) s.transactions
    some { s with transactions := txs }

/-- A session marked skip (as left by a non-TCP connect). -/
def skipSession : SessionData := { emptySession with skip := true }

/-- Five stored summaries whose scores are 0.2, 0.4, 0.6, 0.8, 1.0. -/
def fiveScorings : List Scoring :=
  [{ zeroScoring with Score := 0.2 }, { zeroScoring with Score := 0.4 },
   { zeroScoring with Score := 0.6 }, { zeroScoring with Score := 0.8 },
   { zeroScoring with Score := 1.0 }]

/-- A one-key store holding a single stale summary (timestamp 0). -/
def staleStore : Store := Function.update emptyStore ("a") (some [zeroScoring])

end Hist

namespace Adj

/-- `basePenalty` constant of the adjuster variant. -/
def basePenalty : ℚ := 0.1

/-- `baseReward` constant of the adjuster variant. -/
def baseReward : ℚ := 0.05

/-- The `degradationFactors` map literal of the adjuster variant, as an
association list. -/
def degradationFactorsList : List (String × ℚ) :=
  [("IP", 1.0), ("rDNS", 0.8), ("heloname", 0.6),
   ("mailFrom", 0.4), ("mailDomain", 0.2), ("recipient", 0.5)]

/-- Looking up `degradationFactors[resourceType]`: a Go map read of a missing
key yields the zero value 0.0. -/
def degradationFactors (resourceType : String) : ℚ :=
  (degradationFactorsList.lookup resourceType).getD 0

/-- The blend weights of the adjuster variant. -/
def ipWeight : ℚ := 0.5

/-- Reverse-DNS blend weight. -/
def rdnsWeight : ℚ := 0.3

/-- HELO-name blend weight. -/
def helonameWeight : ℚ := 0.2

/-- `clamp` from the source. -/
def clamp (value min max : ℚ) : ℚ :=
  if value < min then min
  else if value > max then max
  else value

/-- `applyPenalty` from the source. -/
def applyPenalty (resourceType : String) (reputationScore : ℚ) : ℚ :=
  let penalty := basePenalty * degradationFactors resourceType
  clamp (reputationScore - penalty) 0 1

/-- `applyReward` from the source. -/
def applyReward (resourceType : String) (reputationScore : ℚ) : ℚ :=
  let reward := baseReward * degradationFactors resourceType
  clamp (reputationScore + reward) 0 1

/-- A shared trust table: resource key to trust value, missing keys `none`. -/
abbrev TrustMap := String → Option ℚ

/-- The `Reputation` shared state of the adjuster variant. -/
structure Reputation where
  ipAddress : TrustMap
  rdns : TrustMap
  hostname : TrustMap

/-- `NewReputation`: all three tables empty. -/
def emptyReputation : Reputation :=
  { ipAddress := fun _ => none, rdns := fun _ => none, hostname := fun _ => none }

/-- `Reputation.IPAddress`: stored score or the 0.5 default. -/
def Reputation.IPAddress (r : Reputation) (ip : String) : ℚ :=
  (r.ipAddress ip).getD 0.5

/-- `Reputation.ReverseDNS`: stored score or the 0.5 default. -/
def Reputation.ReverseDNS (r : Reputation) (hostname : String) : ℚ :=
  (r.rdns hostname).getD 0.5

/-- `Reputation.Hostname`: stored score or the 0.5 default. -/
def Reputation.Hostname (r : Reputation) (hostname : String) : ℚ :=
  (r.hostname hostname).getD 0.5

/-- Per-connection state of the adjuster variant (`SessionData` in
`filter-reputation.go`). -/
structure SessionData where
  hasReverseDNS : Bool
  hasFcReverseDNS : Bool
  hasStartTLS : Bool
  hasAuth : Bool
  hasEHLO : Bool
  rDNS : String
  ip : String
  heloname : String
  txBegin : Nat
  txData : Nat
  txCommit : Nat
  txRollback : Nat
  txMailFrom : Nat
  txRcptTo : Nat
  rsetCount : Nat
  failedAuth : Nat
  failedMail : Nat
  failedRcpt : Nat
  overallReputation : ℚ
  ipReputation : ℚ
  rdnsReputation : ℚ
  heloReputation : ℚ
deriving DecidableEq

/-- A fresh zeroed session of the adjuster variant. -/
def zeroSession : SessionData :=
  { hasReverseDNS := false, hasFcReverseDNS := false, hasStartTLS := false,
    hasAuth := false, hasEHLO := false, rDNS := "", ip := "", heloname := "",
    txBegin := 0, txData := 0, txCommit := 0, txRollback := 0, txMailFrom := 0,
    txRcptTo := 0, rsetCount := 0, failedAuth := 0, failedMail := 0,
    failedRcpt := 0, overallReputation := 0, ipReputation := 0,
    rdnsReputation := 0, heloReputation := 0 }

/-- `linkConnectCb` of the adjuster variant.  The source performs the type
assertion `src.(*net.TCPAddr)` without the two-value form, so a non-TCP
source address is a runtime panic, embedded as `none`.  Note two oddities
kept faithfully from the source: `hasFcReverseDNS` is assigned
`fcrdns != "ok"` (true exactly when forward-confirmation did NOT succeed),
and `overallReputation` is the blend of the scores as read from the tables
BEFORE the reward/penalty adjustments below it. -/
def linkConnectCb (r : Reputation) (timestamp : Int) (s : SessionData)
    (rdns fcrdns : String) (src : Addr) : Option SessionData :=
  match src with
  | Addr.other => none
  | Addr.tcp ip =>
    let s := { s with ip := ip, rDNS := rdns.toLower,
                      hasReverseDNS := rdns != "<unknown>",
                      hasFcReverseDNS := fcrdns != "ok" }
    let ipScore := r.IPAddress s.ip
    let rdnsScore := r.ReverseDNS s.rDNS
    let overallReputation := ((ipScore * ipWeight) + (rdnsScore * rdnsWeight)) / 2
    let scores :=
      if !s.hasReverseDNS then
        (applyPenalty ("rDNS") ipScore, applyPenalty ("rDNS") rdnsScore)
      else
        (applyReward ("rDNS") ipScore, applyReward ("rDNS") rdnsScore)
    let scores :=
      if !s.hasFcReverseDNS then
        (applyPenalty ("FCrDNS") scores.1, applyPenalty ("rDNS") scores.2)
      else
        (applyReward ("FCrDNS") scores.1, applyReward ("rDNS") scores.2)
    some { s with overallReputation := overallReputation,
                  ipReputation := scores.1, rdnsReputation := scores.2 }

/-- `Reputation.Feedback` from the source: blend the session's final overall
trust into each per-resource trust and write the results back into the
shared tables under the session's keys. -/
def Feedback (r : Reputation) (session : SessionData) : Reputation × SessionData :=
  let overallReputation := session.overallReputation
  let ipFeedback := overallReputation * ipWeight
  let rdnsFeedback := overallReputation * rdnsWeight
  let hostnameFeedback := overallReputation * helonameWeight
  let session :=
    { session with
      ipReputation := clamp ((session.ipReputation + ipFeedback) / 2) 0 1,
      rdnsReputation := clamp ((session.rdnsReputation + rdnsFeedback) / 2) 0 1,
      heloReputation := clamp ((session.heloReputation + hostnameFeedback) / 2) 0 1 }
  let r :=
    { r with
      ipAddress := Function.update r.ipAddress session.ip (some session.ipReputation),
      rdns := Function.update r.rdns session.rDNS (some session.rdnsReputation),
      hostname := Function.update r.hostname session.heloname (some session.heloReputation) }
  (r, session)

/-- `linkDisconnectCb` of the adjuster variant: logs, then calls `Feedback`. -/
def linkDisconnectCb (timestamp : Int) (r : Reputation) (s : SessionData) :
    Reputation × SessionData :=
  Feedback r s

end Adj

/-- An accumulating fold of scores equals the accumulator plus the list sum. -/
lemma foldl_add_map {α : Type} (f : α → ℚ) (l : List α) (a : ℚ) :
    l.foldl (fun acc x => acc + f x) a = a + (l.map f).sum := by
  induction l generalizing a with
  | nil => simp
  | cons hd tl ih => simp [ih, add_assoc]

/-- C1: for every transaction, the transaction score is the clamped weighted
sum of the spec's wording (0.4 accepted sender, 0.3 data, 0.3 committed,
+0.1 per accepted recipient, -0.2 per failed recipient, clamped to [0,1]);
in particular a committed transaction with accepted sender, data seen, two
accepted recipients and no failed recipient scores exactly 1. -/
theorem c1_transaction_score :
    (∀ tx : Hist.Transaction, Hist.scoreTransaction tx = Hist.scoreTransactionSpec tx)
    ∧ Hist.scoreTransaction
        { beginTime := 0, endTime := 0, mailFromOK := true, rcptToOK := 2,
          rcptToTempfail := 0, rcptToPermfail := 0, sawData := true,
          committed := true } = 1 := by
  constructor
  · rintro ⟨bt, et, mf, ok, tf, pf, sd, cm⟩
    simp only [Hist.scoreTransaction, Hist.scoreTransactionSpec, Hist.clamp01]
    cases mf <;> cases sd <;> cases cm <;>
      · simp only [Bool.false_eq_true, if_true, if_false, ite_true, ite_false]
        push_cast
        ring_nf
  · norm_num [Hist.scoreTransaction]

/-- C2: for every session, the session score is the spec's formula - the
arithmetic mean of the transaction scores (0 when there is none), +0.1 per
authentication success, -0.1 per failure, +0.2 for TLS, +0.1 for reverse
DNS, +0.1 for FCrDNS, -0.05 per reset, all clamped to [0,1] - and it always
lies in [0,1]. -/
theorem c2_session_score :
    ∀ s : Hist.SessionData,
      Hist.scoreSession s = Hist.scoreSessionSpec s
      ∧ 0 ≤ Hist.scoreSession s ∧ Hist.scoreSession s ≤ 1 := by
  intro s
  refine ⟨?_, ?_, ?_⟩
  · simp only [Hist.scoreSession, Hist.scoreSessionSpec, Hist.clamp01]
    rw [foldl_add_map]
    rcases h : s.transactions with _ | ⟨hd, tl⟩ <;>
      simp [h] <;>
      cases s.cmdTLS <;> cases s.rdns <;> cases s.fcrdns <;>
      simp only [Bool.false_eq_true, if_true, if_false, ite_true, ite_false] <;>
      push_cast <;> ring_nf
  · simp only [Hist.scoreSession]
    positivity
  · simp only [Hist.scoreSession]
    exact max_le (by norm_num) (min_le_left _ _)

/-- The score component of the aggregation fold is the accumulator's score
plus the sum of the summaries' scores. -/
lemma aggStep_foldl_score (l : List Hist.Scoring) (a : Hist.Scoring) :
    (l.foldl Hist.aggStep a).Score = a.Score + (l.map Hist.Scoring.Score).sum := by
  induction l generalizing a with
  | nil => simp
  | cons hd tl ih => simp [ih, Hist.aggStep, add_assoc]

/-- C3: the prior-trust lookup performed at connect returns exactly 0.5 when
the key is absent or fewer than 5 summaries are stored (regardless of their
values), and otherwise the arithmetic mean of all stored summaries' scores;
in particular 5 summaries with scores 0.2, 0.4, 0.6, 0.8, 1.0 yield 0.6. -/
theorem c3_prior_trust :
    (∀ (store : Hist.Store) (k : String) (l : List Hist.Scoring),
        store k = some l → l.length < 5 → Hist.connectScore store k = 0.5)
    ∧ (∀ (store : Hist.Store) (k : String),
        store k = none → Hist.connectScore store k = 0.5)
    ∧ (∀ (store : Hist.Store) (k : String) (l : List Hist.Scoring),
        store k = some l → 5 ≤ l.length →
        Hist.connectScore store k = (l.map Hist.Scoring.Score).sum / (l.length : ℚ))
    ∧ Hist.connectPriorScore (some Hist.fiveScorings) = 0.6 := by
  refine ⟨?_, ?_, ?_, ?_⟩
  · intro store k l h hlen
    simp [Hist.connectScore, h, Hist.connectPriorScore, hlen]
  · intro store k h
    simp [Hist.connectScore, h, Hist.connectPriorScore]
  · intro store k l h hlen
    have hlt : ¬ l.length < 5 := by omega
    have hz : ¬ l.length = 0 := by omega
    simp [Hist.connectScore, h, Hist.connectPriorScore, hlt, Hist.aggregateScoring,
      hz, aggStep_foldl_score, Hist.zeroScoring]
  · norm_num [Hist.connectPriorScore, Hist.fiveScorings, Hist.aggregateScoring,
      Hist.aggStep, Hist.zeroScoring]

/-- Witness for C3 at a concrete store: a key with a single stored summary
(fewer than 5) yields the neutral prior 0.5. -/
theorem c3_witness : Hist.connectScore Hist.staleStore ("a") = 0.5 :=
  c3_prior_trust.1 Hist.staleStore ("a") [Hist.zeroScoring]
    (by simp [Hist.staleStore]) (by norm_num)

/-- C4: one maintenance sweep pass, per key: a sequence of more than 100
entries becomes exactly its 100 most recent summaries in original order (a
length-100 suffix), for every `now` - so the trimmed key is never examined
for time-expiry; otherwise a key whose newest entry is more than 5 days in
the past is deleted entirely. -/
theorem c4_sweep_pass :
    ∀ (now : Int) (store : Hist.Store) (k : String) (seq : List Hist.Scoring),
      store k = some seq → seq ≠ [] →
      (100 < seq.length →
        Hist.sweepPass now store k = some (seq.drop (seq.length - 100))
        ∧ (seq.drop (seq.length - 100)).length = 100
        ∧ (seq.drop (seq.length - 100)).IsSuffix seq)
      ∧ (seq.length ≤ 100 →
        (seq.getLastD Hist.zeroScoring).Timestamp + 5 * 24 * 3600 < now →
        Hist.sweepPass now store k = none) := by
  intro now store k seq hk hne
  constructor
  · intro h100
    refine ⟨?_, ?_, List.drop_suffix _ _⟩
    · simp [Hist.sweepPass, hk, Hist.sweepKey, h100]
    · simp [List.length_drop]
      omega
  · intro hlen hts
    have h100 : ¬ 100 < seq.length := by omega
    have hts2 : (seq.getLast?.getD Hist.zeroScoring).Timestamp + 432000 < now := by
      rw [List.getLastD_eq_getLast?] at hts
      linarith
    simp [Hist.sweepPass, hk, Hist.sweepKey, h100, hts2]

/-- Witness for C4 at a concrete store: a key whose single summary has
timestamp 0 is deleted by a sweep at time 1000000 (more than 5 days later). -/
theorem c4_witness : Hist.sweepPass 1000000 Hist.staleStore ("a") = none :=
  (c4_sweep_pass 1000000 Hist.staleStore ("a") [Hist.zeroScoring]
      (by simp [Hist.staleStore]) (by simp)).2
    (by simp) (by norm_num [Hist.zeroScoring])

/-- C5 (code bug): evaluating the adjuster's connect handler on a fresh
reputation with `rdns = "a"` (present) and `fcrdns = "ok"`
(forward-confirmation succeeded).  Both default trusts are 0.5.  The code
stores overall trust 0.2 - the blend of the UNADJUSTED scores,
`((0.5*0.5)+(0.5*0.3))/2` - and rdns trust 0.46, i.e. it PENALIZES the
reverse-DNS trust although forward-confirmation succeeded (the source sets
`hasFcReverseDNS` to `fcrdns != "ok"`).  The claim's adjusted blend of the
stored component trusts, `((0.54*0.5)+(0.46*0.3))/2`, would be 0.204 ≠ 0.2. -/
theorem c5_connect_divergence :
    (Adj.linkConnectCb Adj.emptyReputation 0 Adj.zeroSession ("a") ("ok")
        (Addr.tcp ("192.0.2.1"))).map
      (fun s => (s.overallReputation, s.ipReputation, s.rdnsReputation))
      = some (0.2, 0.54, 0.46)
    ∧ (0.46 : ℚ) < Adj.Reputation.ReverseDNS Adj.emptyReputation ("a")
    ∧ ((0.2 : ℚ))
        ≠ (((0.54 : ℚ) * Adj.ipWeight) + ((0.46 : ℚ) * Adj.rdnsWeight)) / 2 := by
  refine ⟨?_, ?_, ?_⟩
  · have hbne : (("a" : String) != "<unknown>") = true := by decide
    have hok : (("ok" : String) != "ok") = false := by decide
    have hfr : Adj.degradationFactors ("rDNS") = 0.8 := rfl
    have hff : Adj.degradationFactors ("FCrDNS") = 0 := rfl
    simp only [Adj.linkConnectCb, hbne, hok, Bool.not_true, Bool.not_false,
      Bool.false_eq_true, ite_true, ite_false, Option.map_some, Option.some.injEq,
      Adj.Reputation.IPAddress, Adj.Reputation.ReverseDNS, Adj.emptyReputation,
      Adj.zeroSession, Adj.applyReward, Adj.applyPenalty, hfr, hff, Adj.clamp,
      Adj.basePenalty, Adj.baseReward, Adj.ipWeight, Adj.rdnsWeight]
    norm_num
  · norm_num [Adj.Reputation.ReverseDNS, Adj.emptyReputation]
  · norm_num [Adj.ipWeight, Adj.rdnsWeight]

/-- C6: `Feedback` (invoked by the adjuster's disconnect handler) sets each
per-resource trust to `clamp((current + overall*classWeight)/2, 0, 1)` with
class weights 0.5 (IP), 0.3 (reverse DNS), 0.2 (HELO name), and writes
exactly these three blended values into the shared tables under the
session's IP-address, reverse-DNS-name and HELO-name keys. -/
theorem c6_feedback_blend :
    ∀ (ts : Int) (r : Adj.Reputation) (s : Adj.SessionData),
      Adj.linkDisconnectCb ts r s = Adj.Feedback r s
      ∧ (Adj.Feedback r s).2.ipReputation
          = Adj.clamp ((s.ipReputation + s.overallReputation * 0.5) / 2) 0 1
      ∧ (Adj.Feedback r s).2.rdnsReputation
          = Adj.clamp ((s.rdnsReputation + s.overallReputation * 0.3) / 2) 0 1
      ∧ (Adj.Feedback r s).2.heloReputation
          = Adj.clamp ((s.heloReputation + s.overallReputation * 0.2) / 2) 0 1
      ∧ (Adj.Feedback r s).1.ipAddress
          = Function.update r.ipAddress s.ip (some ((Adj.Feedback r s).2.ipReputation))
      ∧ (Adj.Feedback r s).1.rdns
          = Function.update r.rdns s.rDNS (some ((Adj.Feedback r s).2.rdnsReputation))
      ∧ (Adj.Feedback r s).1.hostname
          = Function.update r.hostname s.heloname (some ((Adj.Feedback r s).2.heloReputation)) := by
  intro ts r s
  refine ⟨rfl, ?_, ?_, ?_, ?_, ?_, ?_⟩ <;>
    simp [Adj.Feedback, Adj.ipWeight, Adj.rdnsWeight, Adj.helonameWeight]

/-- The clamp to [0,1] is nonnegative. -/
lemma clamp01_nonneg (x : ℚ) : 0 ≤ Adj.clamp x 0 1 := by
  simp only [Adj.clamp]
  split_ifs <;> linarith

/-- The clamp to [0,1] is at most 1. -/
lemma clamp01_le_one (x : ℚ) : Adj.clamp x 0 1 ≤ 1 := by
  simp only [Adj.clamp]
  split_ifs <;> linarith

/-- A value of [0,1] below the clamp's argument is below the clamp. -/
lemma le_clamp01 {x v : ℚ} (h0 : 0 ≤ v) (h1 : v ≤ 1) (hx : v ≤ x) :
    v ≤ Adj.clamp x 0 1 := by
  simp only [Adj.clamp]
  split_ifs <;> linarith

/-- Strict version of `le_clamp01`. -/
lemma lt_clamp01 {x v : ℚ} (h1 : v < 1) (hx : v < x) : v < Adj.clamp x 0 1 := by
  simp only [Adj.clamp]
  split_ifs <;> linarith

/-- A nonnegative value above the clamp's argument is above the clamp. -/
lemma clamp01_le {x v : ℚ} (h0 : 0 ≤ v) (hx : x ≤ v) : Adj.clamp x 0 1 ≤ v := by
  simp only [Adj.clamp]
  split_ifs <;> linarith

/-- Strict version of `clamp01_le`. -/
lemma clamp01_lt {x v : ℚ} (h0 : 0 < v) (hx : x < v) : Adj.clamp x 0 1 < v := by
  simp only [Adj.clamp]
  split_ifs <;> linarith

/-- The clamp of a nonnegative argument is at most the argument. -/
lemma clamp01_le_self {x : ℚ} (h : 0 ≤ x) : Adj.clamp x 0 1 ≤ x := by
  simp only [Adj.clamp]
  split_ifs <;> linarith

/-- All reward/penalty facts for one resource class whose degradation factor
lies in (0,1], bundled for reuse. -/
lemma rewardPenaltyFacts (c : String) (hF : 0 < Adj.degradationFactors c)
    (hF1 : Adj.degradationFactors c ≤ 1) (v : ℚ) (h0 : 0 ≤ v) (h1 : v ≤ 1) :
    (0 ≤ Adj.applyReward c v ∧ Adj.applyReward c v ≤ 1)
    ∧ (0 ≤ Adj.applyPenalty c v ∧ Adj.applyPenalty c v ≤ 1)
    ∧ v ≤ Adj.applyReward c v
    ∧ (v < 1 → v < Adj.applyReward c v)
    ∧ Adj.applyPenalty c v ≤ v
    ∧ (0 < v → Adj.applyPenalty c v < v)
    ∧ Adj.applyPenalty c (Adj.applyReward c v) ≤ v := by
  have hr : Adj.applyReward c v
      = Adj.clamp (v + Adj.baseReward * Adj.degradationFactors c) 0 1 := rfl
  have hp : ∀ w : ℚ, Adj.applyPenalty c w
      = Adj.clamp (w - Adj.basePenalty * Adj.degradationFactors c) 0 1 := fun w => rfl
  have hbr : Adj.baseReward = 0.05 := rfl
  have hbp : Adj.basePenalty = 0.1 := rfl
  have hrpos : 0 < Adj.baseReward * Adj.degradationFactors c := by
    rw [hbr]
    positivity
  have hppos : 0 < Adj.basePenalty * Adj.degradationFactors c := by
    rw [hbp]
    positivity
  have hrlep : Adj.baseReward * Adj.degradationFactors c
      ≤ Adj.basePenalty * Adj.degradationFactors c := by
    rw [hbr, hbp]
    nlinarith
  refine ⟨⟨?_, ?_⟩, ⟨?_, ?_⟩, ?_, ?_, ?_, ?_, ?_⟩
  · rw [hr]; exact clamp01_nonneg _
  · rw [hr]; exact clamp01_le_one _
  · rw [hp]; exact clamp01_nonneg _
  · rw [hp]; exact clamp01_le_one _
  · rw [hr]; exact le_clamp01 h0 h1 (by linarith)
  · intro hlt; rw [hr]; exact lt_clamp01 hlt (by linarith)
  · rw [hp]; exact clamp01_le h0 (by linarith)
  · intro hpos; rw [hp]; exact clamp01_lt hpos (by linarith)
  · rw [hp, hr]
    have hw : Adj.clamp (v + Adj.baseReward * Adj.degradationFactors c) 0 1
        ≤ v + Adj.baseReward * Adj.degradationFactors c :=
      clamp01_le_self (by linarith)
    exact clamp01_le h0 (by linarith)

/-- Every degradation factor listed in the source's table lies in (0,1]. -/
lemma listed_factor_bounds :
    ∀ c ∈ Adj.degradationFactorsList.map Prod.fst,
      0 < Adj.degradationFactors c ∧ Adj.degradationFactors c ≤ 1 := by
  intro c hc
  simp [Adj.degradationFactorsList] at hc
  have hIP : Adj.degradationFactors ("IP") = 1.0 := rfl
  have hrDNS : Adj.degradationFactors ("rDNS") = 0.8 := rfl
  have hhelo : Adj.degradationFactors ("heloname") = 0.6 := rfl
  have hmf : Adj.degradationFactors ("mailFrom") = 0.4 := rfl
  have hmd : Adj.degradationFactors ("mailDomain") = 0.2 := rfl
  have hrcpt : Adj.degradationFactors ("recipient") = 0.5 := rfl
  rcases hc with h | h | h | h | h | h <;> subst h <;>
    exact ⟨by norm_num [hIP, hrDNS, hhelo, hmf, hmd, hrcpt],
           by norm_num [hIP, hrDNS, hhelo, hmf, hmd, hrcpt]⟩

/-- C7 counterexample: contrary to the claim, there is NO listed resource
class `c` and value `v` in [0,1] with `penalize(c, reward(c, v)) > v`: the
reward's magnitude is half the penalty's, so the round trip never ends above
where it started. -/
theorem c7_round_trip_counterexample :
    ¬ ∃ (c : String) (v : ℚ),
        c ∈ Adj.degradationFactorsList.map Prod.fst
        ∧ 0 ≤ v ∧ v ≤ 1 ∧ v < Adj.applyPenalty c (Adj.applyReward c v) := by
  rintro ⟨c, v, hc, h0, h1, hlt⟩
  obtain ⟨hF, hF1⟩ := listed_factor_bounds c hc
  have h := rewardPenaltyFacts c hF hF1 v h0 h1
  have hle := h.2.2.2.2.2.2
  linarith

/-- C7 (amended): for every listed resource class and every trust value in
[0,1], reward and penalize stay in [0,1]; reward is ≥ the value and strictly
greater unless the value is already 1; penalize is ≤ the value and strictly
smaller unless it is already 0; and `penalize(c, reward(c, v)) ≤ v` holds
for ALL such classes and values (not, as the spec put it, "false in
general"). -/
theorem c7_reward_penalize_bounds :
    ∀ (c : String), c ∈ Adj.degradationFactorsList.map Prod.fst →
    ∀ (v : ℚ), 0 ≤ v → v ≤ 1 →
      (0 ≤ Adj.applyReward c v ∧ Adj.applyReward c v ≤ 1)
      ∧ (0 ≤ Adj.applyPenalty c v ∧ Adj.applyPenalty c v ≤ 1)
      ∧ v ≤ Adj.applyReward c v
      ∧ (v < 1 → v < Adj.applyReward c v)
      ∧ Adj.applyPenalty c v ≤ v
      ∧ (0 < v → Adj.applyPenalty c v < v)
      ∧ Adj.applyPenalty c (Adj.applyReward c v) ≤ v := by
  intro c hc v h0 h1
  obtain ⟨hF, hF1⟩ := listed_factor_bounds c hc
  exact rewardPenaltyFacts c hF hF1 v h0 h1

/-- Witness for C7 at the concrete class IP and value 0.5: the
reward-then-penalize round trip does not exceed the starting value. -/
theorem c7_witness :
    Adj.applyPenalty ("IP") (Adj.applyReward ("IP") 0.5) ≤ 0.5 :=
  (c7_reward_penalize_bounds ("IP") (by decide) 0.5 (by norm_num)
    (by norm_num)).2.2.2.2.2.2

/-- C8 counterexample: the adjuster variant's connect handler performs the
type assertion `src.(*net.TCPAddr)` without the two-value form, so a connect
event whose source address is not a TCP address is a runtime panic (`none`),
not a graceful completion. -/
theorem c8_counterexample :
    Adj.linkConnectCb Adj.emptyReputation 0 Adj.zeroSession ("example.org")
      ("ok") Addr.other = none := rfl

/-- C8 (amended): the historical engine's transaction handlers complete
without fatal error whenever the session is skipped or has at least one
transaction; when a non-skipped session has no transactions they index
`transactions[len-1]` out of range (and the adjuster variant's connect
handler aborts on a non-TCP source, see the counterexample), so totality
holds only under this precondition. -/
theorem c8_handlers_total :
    ∀ (ts sz : Int) (s : Hist.SessionData) (mid res x : String),
      s.skip = true ∨ s.transactions ≠ [] →
      (Hist.txMailCb ts s mid res x).isSome = true
      ∧ (Hist.txRcptCb ts s mid res x).isSome = true
      ∧ (Hist.txDataCb ts s mid res).isSome = true
      ∧ (Hist.txCommitCb ts s mid sz).isSome = true
      ∧ (Hist.txRollbackCb ts s mid).isSome = true := by
  intro ts sz s mid res x h
  cases hs : s.skip
  · have ht : s.transactions ≠ [] := by
      rcases h with h | h
      · rw [hs] at h
        exact absurd h (by simp)
      · exact h
    have hie : s.transactions.isEmpty = false := by
      cases h' : s.transactions
      · exact absurd h' ht
      · simp [h']
    refine ⟨?_, ?_, ?_, ?_, ?_⟩ <;>
      simp [Hist.txMailCb, Hist.txRcptCb, Hist.txDataCb, Hist.txCommitCb,
        Hist.txRollbackCb, hs, hie]
  · refine ⟨?_, ?_, ?_, ?_, ?_⟩ <;>
      simp [Hist.txMailCb, Hist.txRcptCb, Hist.txDataCb, Hist.txCommitCb,
        Hist.txRollbackCb, hs]

/-- Witness for C8 at a concrete session: on a skipped session every
transaction handler completes. -/
theorem c8_witness :
    (Hist.txMailCb 0 Hist.skipSession ("m") ("ok") ("f")).isSome = true
    ∧ (Hist.txRcptCb 0 Hist.skipSession ("m") ("ok") ("f")).isSome = true
    ∧ (Hist.txDataCb 0 Hist.skipSession ("m") ("ok")).isSome = true
    ∧ (Hist.txCommitCb 0 Hist.skipSession ("m") 0).isSome = true
    ∧ (Hist.txRollbackCb 0 Hist.skipSession ("m")).isSome = true :=
  c8_handlers_total 0 0 Hist.skipSession ("m") ("ok") ("f") (Or.inl rfl)

/-- C9: a connect with a non-TCP source address only marks the session skip,
and every handler of the historical engine leaves a skipped session and the
shared store untouched - in particular no summary is recorded at
disconnect. -/
theorem c9_skip_sessions_inert :
    (∀ (ts : Int) (s : Hist.SessionData) (rdns fcrdns : String),
        Hist.linkConnectCb ts s rdns fcrdns Addr.other = { s with skip := true })
    ∧ ∀ (s : Hist.SessionData), s.skip = true →
      ∀ (ts now sz : Int) (store : Hist.Store) (mid res x method host tls : String),
        Hist.linkDisconnectCb ts now s store = (s, store)
        ∧ Hist.linkIdentifyCb ts s method host = s
        ∧ Hist.linkAuthCb ts s res x = s
        ∧ Hist.linkTLSCb ts s tls = s
        ∧ Hist.txResetCb ts s mid = s
        ∧ Hist.txBeginCb ts s mid = s
        ∧ Hist.txMailCb ts s mid res x = some s
        ∧ Hist.txRcptCb ts s mid res x = some s
        ∧ Hist.txDataCb ts s mid res = some s
        ∧ Hist.txCommitCb ts s mid sz = some s
        ∧ Hist.txRollbackCb ts s mid = some s := by
  constructor
  · intro ts s rdns fcrdns
    rfl
  · intro s hs ts now sz store mid res x method host tls
    refine ⟨?_, ?_, ?_, ?_, ?_, ?_, ?_, ?_, ?_, ?_, ?_⟩ <;>
      simp [Hist.linkDisconnectCb, Hist.linkIdentifyCb, Hist.linkAuthCb,
        Hist.linkTLSCb, Hist.txResetCb, Hist.txBeginCb, Hist.txMailCb,
        Hist.txRcptCb, Hist.txDataCb, Hist.txCommitCb, Hist.txRollbackCb, hs]

/-- Witness for C9 at a concrete skipped session: disconnect records nothing
and leaves both the session and the store unchanged. -/
theorem c9_witness :
    Hist.linkDisconnectCb 0 0 Hist.skipSession Hist.emptyStore
      = (Hist.skipSession, Hist.emptyStore) :=
  (c9_skip_sessions_inert.2 Hist.skipSession rfl 0 0 0 Hist.emptyStore
    ("m") ("ok") ("f") ("EHLO") ("h") ("t")).1

/-- C10: for every resource-class name not present in the degradation-factor
table the looked-up factor defaults to 0, so `applyReward` and
`applyPenalty` return any trust value of [0,1] unchanged; in particular the
class FCrDNS used by the adjuster's connect handler for the IP trust is not
in the table, making that adjustment a no-op. -/
theorem c10_unlisted_class_noop :
    (∀ (c : String), Adj.degradationFactorsList.lookup c = none →
      Adj.degradationFactors c = 0
      ∧ ∀ (v : ℚ), 0 ≤ v → v ≤ 1 → Adj.applyReward c v = v ∧ Adj.applyPenalty c v = v)
    ∧ Adj.degradationFactorsList.lookup ("FCrDNS") = none := by
  constructor
  · intro c hc
    have hF : Adj.degradationFactors c = 0 := by
      simp [Adj.degradationFactors, hc]
    refine ⟨hF, ?_⟩
    intro v h0 h1
    constructor <;>
      · simp only [Adj.applyReward, Adj.applyPenalty, hF, mul_zero, add_zero,
          sub_zero, Adj.clamp]
        split_ifs <;> linarith
  · rfl

/-- Witness for C10 at the concrete class FCrDNS and value 0.5: both
adjustments return the value unchanged. -/
theorem c10_witness :
    Adj.applyReward ("FCrDNS") 0.5 = 0.5 ∧ Adj.applyPenalty ("FCrDNS") 0.5 = 0.5 :=
  (c10_unlisted_class_noop.1 ("FCrDNS") rfl).2 0.5 (by norm_num) (by norm_num)
